import Mathlib

/-!
Verification development for the fashion-store sales ingestion loader
(`src/Ingestion/main.py` and `src/dags/fashion_sales_dag.py`).

The Python loader is shallowly embedded as follows:

* A tabular cell is `Option String` (or `Option ℤ` / `Option ℚ` for numeric
  columns); `none` models a missing value (`pd.isna` true).  `str()` applied
  to a missing cell (as in `df[...].astype(str)`) yields the text `"nan"`,
  which is what pandas produces.
* Python `Decimal` values are modelled as exact rationals `ℚ`.
* Python dicts are modelled as association lists whose lookup takes the
  *latest* binding (later assignments to the same key overwrite earlier
  ones, as in a Python dict built by successive assignment).
* A dimension table (`dim_channel`, `dim_campaign`, ...) is a list of
  `(surrogate id, natural key)` rows plus a counter for the next fresh id;
  `INSERT ... ON CONFLICT DO NOTHING` is insert-if-absent.
* The keyed `INSERT ... ON CONFLICT DO UPDATE` upserts on the customer /
  product / fact tables are modelled as a fold of single-row
  insert-or-overwrite operations (last write wins).
* Raising an exception is modelled with `Except`; the surrounding
  `try/except` with `conn.rollback()` makes a failed run return the
  original database state.
* Date parsing (`pd.to_datetime(..., errors="coerce")`) is abstracted as
  the identity on the raw text: no claim below depends on calendar
  semantics, only on determinism and equality of the parsed field.
-/

set_option autoImplicit false

namespace Artefact

/-! ## Python-dict model: association lists with last-binding-wins lookup -/

/-- Lookup in a Python dict built by successive assignment: entries later in
the list overwrite earlier ones, so the *last* matching binding wins. -/
def dictGet {K V : Type} [DecidableEq K] : List (K × V) → K → Option V
  | [], _ => none
  | e :: rest, k =>
    match dictGet rest k with
    | some w => some w
    | none => if k = e.1 then some e.2 else none

theorem dictGet_nil {K V : Type} [DecidableEq K] (k : K) :
    dictGet ([] : List (K × V)) k = none := rfl

theorem dictGet_singleton {K V : Type} [DecidableEq K] (e : K × V) (k : K) :
    dictGet [e] k = if k = e.1 then some e.2 else none := rfl

theorem dictGet_append_of_some {K V : Type} [DecidableEq K]
    (l₁ l₂ : List (K × V)) (k : K) (v : V) (h : dictGet l₂ k = some v) :
    dictGet (l₁ ++ l₂) k = some v := by
  induction l₁ with
  | nil => simpa using h
  | cons e l₁ ih =>
    show dictGet (e :: (l₁ ++ l₂)) k = some v
    unfold dictGet
    rw [ih]

theorem dictGet_append_of_none {K V : Type} [DecidableEq K]
    (l₁ l₂ : List (K × V)) (k : K) (h : dictGet l₂ k = none) :
    dictGet (l₁ ++ l₂) k = dictGet l₁ k := by
  induction l₁ with
  | nil => simpa using h
  | cons e l₁ ih =>
    show dictGet (e :: (l₁ ++ l₂)) k = dictGet (e :: l₁) k
    unfold dictGet
    rw [ih]

theorem dictGet_isSome_iff {K V : Type} [DecidableEq K]
    (l : List (K × V)) (k : K) :
    (dictGet l k).isSome = true ↔ ∃ v, (k, v) ∈ l := by
  induction l with
  | nil => simp [dictGet]
  | cons e rest ih =>
    unfold dictGet
    cases hr : dictGet rest k with
    | some w =>
      simp only [Option.isSome_some, true_iff]
      have : ∃ v, (k, v) ∈ rest := ih.mp (by rw [hr]; rfl)
      obtain ⟨v, hv⟩ := this
      exact ⟨v, List.mem_cons_of_mem _ hv⟩
    | none =>
      by_cases hk : k = e.1
      · subst hk
        rw [if_pos rfl]
        constructor
        · intro _
          exact ⟨e.2, List.mem_cons_self _ _⟩
        · intro _
          rfl
      · simp only [if_neg hk, Option.isSome_none]
        constructor
        · intro h; exact absurd h (by simp)
        · rintro ⟨v, hv⟩
          rcases List.mem_cons.mp hv with h | h
          · exact absurd (congrArg Prod.fst h) hk
          · have : (dictGet rest k).isSome = true := ih.mpr ⟨v, h⟩
            rw [hr] at this; exact absurd this (by simp)

theorem mem_of_dictGet {K V : Type} [DecidableEq K]
    (l : List (K × V)) (k : K) (v : V) (h : dictGet l k = some v) :
    (k, v) ∈ l := by
  induction l with
  | nil => simp [dictGet] at h
  | cons e rest ih =>
    unfold dictGet at h
    cases hr : dictGet rest k with
    | some w =>
      rw [hr] at h
      cases h
      exact List.mem_cons_of_mem _ (ih hr)
    | none =>
      rw [hr] at h
      by_cases hk : k = e.1
      · rw [if_pos hk] at h
        cases h
        subst hk
        exact List.mem_cons_self _ _
      · rw [if_neg hk] at h
        cases h

/-- If `k` is bound in `l` and every binding of `k` has value `i`, then the
dict lookup yields `i` (no uniqueness of bindings needed). -/
theorem dictGet_of_mem_unique {K V : Type} [DecidableEq K]
    (l : List (K × V)) (k : K) (i : V) (hmem : (k, i) ∈ l)
    (huniq : ∀ v, (k, v) ∈ l → v = i) :
    dictGet l k = some i := by
  induction l with
  | nil => cases hmem
  | cons e rest ih =>
    unfold dictGet
    cases hr : dictGet rest k with
    | some w =>
      have := huniq w (List.mem_cons_of_mem _ (mem_of_dictGet _ _ _ hr))
      rw [this]
    | none =>
      rcases List.mem_cons.mp hmem with h | h
      · have hk : k = e.1 := congrArg Prod.fst h
        rw [if_pos hk]
        have hv : e.2 = i := congrArg Prod.snd h.symm
        rw [hv]
      · have : (dictGet rest k).isSome = true :=
          (dictGet_isSome_iff rest k).mpr ⟨i, h⟩
        rw [hr] at this
        exact absurd this (by simp)

/-! ## Dimension tables: surrogate id + unique natural key, insert-if-absent

`DimTable κ` models a Postgres dimension table with a serial surrogate id
column and a natural-key column of type `κ` carrying a UNIQUE constraint
(`κ = String` for the six simple dimensions, `κ = ℕ × String` for
`dim_campaign`, whose key is `(channel_id, campaign_name)`).
`INSERT ... VALUES ... ON CONFLICT (natural key) DO NOTHING` is modelled as
a fold of insert-if-absent steps. -/

structure DimTable (κ : Type) where
  rows : List (ℕ × κ)
  next : ℕ
  deriving DecidableEq, Repr

namespace DimTable

variable {κ : Type} [DecidableEq κ]

/-- The id currently assigned to natural-key value `v` (as read back by the
`SELECT id_col, natural_col ... WHERE natural_col = ANY(...)` query and
collected into a Python dict keyed by the natural value). -/
def lookupId (d : DimTable κ) (v : κ) : Option ℕ :=
  dictGet (d.rows.map (fun r => (r.2, r.1))) v

/-- One row of `INSERT ... ON CONFLICT DO NOTHING`: a conflicting insert
leaves the existing row unchanged, otherwise a fresh id is assigned. -/
def insertValue (d : DimTable κ) (v : κ) : DimTable κ :=
  if d.rows.any (fun r => r.2 = v) then d
  else ⟨d.rows ++ [(d.next, v)], d.next + 1⟩

def insertAll (d : DimTable κ) (vs : List κ) : DimTable κ :=
  vs.foldl insertValue d

theorem lookupId_isSome_iff_any (d : DimTable κ) (v : κ) :
    (d.lookupId v).isSome = true ↔ d.rows.any (fun r => r.2 = v) = true := by
  unfold lookupId
  rw [dictGet_isSome_iff]
  rw [List.any_eq_true]
  constructor
  · rintro ⟨i, hi⟩
    rcases List.mem_map.mp hi with ⟨r, hr, hre⟩
    refine ⟨r, hr, ?_⟩
    have : r.2 = v := congrArg Prod.fst hre
    simp [this]
  · rintro ⟨r, hr, hrv⟩
    refine ⟨r.1, List.mem_map.mpr ⟨r, hr, ?_⟩⟩
    have hv : r.2 = v := by simpa using hrv
    rw [hv]

theorem lookupId_insertValue_of_some (d : DimTable κ) (u v : κ) (i : ℕ)
    (h : d.lookupId v = some i) :
    (d.insertValue u).lookupId v = some i := by
  unfold insertValue
  by_cases ha : d.rows.any (fun r => r.2 = u) = true
  · rw [if_pos ha]; exact h
  · rw [if_neg ha]
    by_cases hv : v = u
    · subst hv
      have hs : (d.lookupId v).isSome = true := by rw [h]; rfl
      exact absurd ((lookupId_isSome_iff_any d v).mp hs) ha
    · show dictGet ((d.rows ++ [(d.next, u)]).map (fun r => (r.2, r.1))) v = some i
      rw [List.map_append]
      rw [dictGet_append_of_none]
      · exact h
      · show dictGet [(u, d.next)] v = none
        rw [dictGet_singleton]
        exact if_neg hv

theorem lookupId_insertAll_of_some (d : DimTable κ) (vs : List κ) (v : κ) (i : ℕ)
    (h : d.lookupId v = some i) :
    (d.insertAll vs).lookupId v = some i := by
  induction vs generalizing d with
  | nil => exact h
  | cons u vs ih =>
    exact ih (d.insertValue u) (lookupId_insertValue_of_some d u v i h)

theorem lookupId_insertValue_self (d : DimTable κ) (v : κ) :
    ((d.insertValue v).lookupId v).isSome = true := by
  unfold insertValue
  by_cases ha : d.rows.any (fun r => r.2 = v) = true
  · rw [if_pos ha]
    exact (lookupId_isSome_iff_any d v).mpr ha
  · rw [if_neg ha]
    show (dictGet ((d.rows ++ [(d.next, v)]).map (fun r => (r.2, r.1))) v).isSome = true
    rw [List.map_append]
    simp only [List.map_cons, List.map_nil]
    have hone : dictGet [(v, d.next)] v = some d.next := by
      rw [dictGet_singleton]
      exact if_pos rfl
    rw [dictGet_append_of_some _ _ _ _ hone]
    rfl

theorem lookupId_isSome_preserved (d : DimTable κ) (u v : κ)
    (h : (d.lookupId v).isSome = true) :
    ((d.insertValue u).lookupId v).isSome = true := by
  cases hv : d.lookupId v with
  | none => rw [hv] at h; exact absurd h (by simp)
  | some i => rw [lookupId_insertValue_of_some d u v i hv]; rfl

theorem lookupId_insertAll_of_mem (d : DimTable κ) (vs : List κ) (v : κ)
    (h : v ∈ vs) :
    ((d.insertAll vs).lookupId v).isSome = true := by
  induction vs generalizing d with
  | nil => cases h
  | cons u vs ih =>
    have hstep : d.insertAll (u :: vs) = (d.insertValue u).insertAll vs := rfl
    rw [hstep]
    rcases List.mem_cons.mp h with h | h
    · subst h
      cases hv : (d.insertValue v).lookupId v with
      | none =>
        have hself := lookupId_insertValue_self d v
        rw [hv] at hself
        exact absurd hself (by simp)
      | some i =>
        rw [lookupId_insertAll_of_some _ _ _ _ hv]
        rfl
    · exact ih (d.insertValue u) h

theorem insertValue_of_isSome (d : DimTable κ) (v : κ)
    (h : (d.lookupId v).isSome = true) :
    d.insertValue v = d := by
  unfold insertValue
  rw [if_pos ((lookupId_isSome_iff_any d v).mp h)]

theorem insertAll_of_all_isSome (d : DimTable κ) (vs : List κ)
    (h : ∀ v ∈ vs, (d.lookupId v).isSome = true) :
    d.insertAll vs = d := by
  induction vs with
  | nil => rfl
  | cons u vs ih =>
    show (d.insertValue u).insertAll vs = d
    rw [insertValue_of_isSome d u (h u (List.mem_cons_self _ _))]
    exact ih (fun v hv => h v (List.mem_cons_of_mem _ hv))

/-- A second identical bulk insert-if-absent pass is a no-op. -/
theorem insertAll_insertAll (d : DimTable κ) (vs : List κ) :
    (d.insertAll vs).insertAll vs = d.insertAll vs :=
  insertAll_of_all_isSome _ _ (fun v hv => lookupId_insertAll_of_mem d vs v hv)

end DimTable

/-! ## Keyed overwrite tables (`ON CONFLICT (pk) DO UPDATE SET ...`)

`dim_customer`, `dim_product`, `fact_sale` and `fact_sale_item` are keyed by
an externally supplied id and overwritten in place (type-1 / last write
wins).  A bulk upsert is modelled as a fold of single-row
insert-or-overwrite steps; a batch containing the same key twice therefore
resolves last-write-wins here, where Postgres would reject the statement —
either way such a run commits nothing new on a repeat, and no claim below
depends on the difference. -/

section Upsert

variable {K α : Type} [DecidableEq K]

/-- `true` when the table already has a row with primary key `k`. -/
def hasKey (t : List (K × α)) (k : K) : Bool :=
  t.any (fun p => p.1 = k)

/-- Insert row `(k, v)`; if a row with key `k` exists, overwrite its
non-key attributes in place. -/
def upsertRow (t : List (K × α)) (k : K) (v : α) : List (K × α) :=
  if hasKey t k then t.map (fun p => if p.1 = k then (k, v) else p)
  else t ++ [(k, v)]

def upsertList (t : List (K × α)) (rs : List (K × α)) : List (K × α) :=
  rs.foldl (fun acc r => upsertRow acc r.1 r.2) t

/-- In-place overwrite of every row keyed `k` (the branch of `upsertRow`
taken when the key is already present). -/
def replaceRow (t : List (K × α)) (k : K) (v : α) : List (K × α) :=
  t.map (fun p => if p.1 = k then (k, v) else p)

def replaceList (t : List (K × α)) (rs : List (K × α)) : List (K × α) :=
  rs.foldl (fun acc r => replaceRow acc r.1 r.2) t

theorem hasKey_iff (t : List (K × α)) (k : K) :
    hasKey t k = true ↔ ∃ v, (k, v) ∈ t := by
  unfold hasKey
  rw [List.any_eq_true]
  constructor
  · rintro ⟨p, hp, hpk⟩
    have : p.1 = k := by simpa using hpk
    exact ⟨p.2, by rw [← this]; simpa using hp⟩
  · rintro ⟨v, hv⟩
    exact ⟨(k, v), hv, by simp⟩

theorem hasKey_cons (p : K × α) (t : List (K × α)) (k : K) :
    hasKey (p :: t) k = (decide (p.1 = k) || hasKey t k) := by
  unfold hasKey
  rw [List.any_cons]

theorem hasKey_replaceRow (t : List (K × α)) (k k' : K) (v : α) :
    hasKey (replaceRow t k v) k' = hasKey t k' := by
  induction t with
  | nil => rfl
  | cons p t ih =>
    have hmap : replaceRow (p :: t) k v
        = (if p.1 = k then (k, v) else p) :: replaceRow t k v := rfl
    rw [hmap, hasKey_cons, hasKey_cons, ih]
    by_cases hp : p.1 = k
    · rw [if_pos hp, hp]
    · rw [if_neg hp]

theorem upsertRow_of_hasKey (t : List (K × α)) (k : K) (v : α)
    (h : hasKey t k = true) :
    upsertRow t k v = replaceRow t k v := by
  unfold upsertRow
  rw [if_pos h]
  rfl

theorem hasKey_upsertRow_of_hasKey (t : List (K × α)) (k k' : K) (v : α)
    (h : hasKey t k' = true) :
    hasKey (upsertRow t k v) k' = true := by
  unfold upsertRow
  by_cases hk : hasKey t k = true
  · rw [if_pos hk]
    show hasKey (replaceRow t k v) k' = true
    rw [hasKey_replaceRow]
    exact h
  · rw [if_neg hk]
    rcases (hasKey_iff t k').mp h with ⟨w, hw⟩
    exact (hasKey_iff _ k').mpr ⟨w, List.mem_append_left _ hw⟩

theorem hasKey_upsertRow_self (t : List (K × α)) (k : K) (v : α) :
    hasKey (upsertRow t k v) k = true := by
  unfold upsertRow
  by_cases hk : hasKey t k = true
  · rw [if_pos hk]
    show hasKey (replaceRow t k v) k = true
    rw [hasKey_replaceRow]
    exact hk
  · rw [if_neg hk]
    exact (hasKey_iff _ k).mpr ⟨v, List.mem_append_right _ (by simp)⟩

theorem hasKey_upsertList_of_hasKey (t : List (K × α)) (rs : List (K × α)) (k : K)
    (h : hasKey t k = true) :
    hasKey (upsertList t rs) k = true := by
  induction rs generalizing t with
  | nil => exact h
  | cons r rs ih => exact ih _ (hasKey_upsertRow_of_hasKey t r.1 k r.2 h)

theorem hasKey_upsertList_of_mem (t : List (K × α)) (rs : List (K × α))
    (r : K × α) (h : r ∈ rs) :
    hasKey (upsertList t rs) r.1 = true := by
  induction rs generalizing t with
  | nil => cases h
  | cons s rs ih =>
    have hstep : upsertList t (s :: rs) = upsertList (upsertRow t s.1 s.2) rs := rfl
    rw [hstep]
    rcases List.mem_cons.mp h with h | h
    · subst h
      exact hasKey_upsertList_of_hasKey _ rs r.1 (hasKey_upsertRow_self t r.1 r.2)
    · exact ih _ h

theorem upsertList_eq_replaceList (t : List (K × α)) (rs : List (K × α))
    (h : ∀ r ∈ rs, hasKey t r.1 = true) :
    upsertList t rs = replaceList t rs := by
  induction rs generalizing t with
  | nil => rfl
  | cons r rs ih =>
    have h1 : hasKey t r.1 = true := h r (List.mem_cons_self _ _)
    show upsertList (upsertRow t r.1 r.2) rs = replaceList (replaceRow t r.1 r.2) rs
    rw [upsertRow_of_hasKey t r.1 r.2 h1]
    apply ih
    intro s hs
    rw [hasKey_replaceRow]
    exact h s (List.mem_cons_of_mem _ hs)

/-- One overwrite step followed by a batch of overwrites, seen pointwise. -/
theorem replaceStep_pointwise (p r : K × α) (rs : List (K × α)) :
    (match dictGet rs (if p.1 = r.1 then (r.1, r.2) else p).1 with
     | some v => ((if p.1 = r.1 then (r.1, r.2) else p).1, v)
     | none => if p.1 = r.1 then (r.1, r.2) else p) =
    (match dictGet (r :: rs) p.1 with
     | some v => (p.1, v)
     | none => p) := by
  have hfst : (if p.1 = r.1 then (r.1, r.2) else p).1 = p.1 := by
    by_cases hp : p.1 = r.1
    · rw [if_pos hp, hp]
    · rw [if_neg hp]
  rw [hfst]
  cases hg : dictGet rs p.1 with
  | some w =>
    have hr : dictGet (r :: rs) p.1 = some w := by
      show (match dictGet rs p.1 with
            | some u => some u
            | none => if p.1 = r.1 then some r.2 else none) = some w
      rw [hg]
    rw [hr]
  | none =>
    have hr : dictGet (r :: rs) p.1 = if p.1 = r.1 then some r.2 else none := by
      show (match dictGet rs p.1 with
            | some u => some u
            | none => if p.1 = r.1 then some r.2 else none) =
           (if p.1 = r.1 then some r.2 else none)
      rw [hg]
    rw [hr]
    by_cases hp : p.1 = r.1
    · rw [if_pos hp, if_pos hp, hp]
    · rw [if_neg hp, if_neg hp]

/-- Composite form of a sequence of in-place overwrites: each row ends at
the *last* value assigned to its key in `rs` (the dict-style lookup). -/
theorem replaceList_eq_map (t : List (K × α)) (rs : List (K × α)) :
    replaceList t rs = t.map (fun p =>
      match dictGet rs p.1 with
      | some v => (p.1, v)
      | none => p) := by
  induction rs generalizing t with
  | nil =>
    show t = t.map _
    rw [List.map_congr_left (g := id) ?_]
    · rw [List.map_id]
    · intro p _
      show (match dictGet ([] : List (K × α)) p.1 with
            | some v => (p.1, v)
            | none => p) = p
      rw [dictGet_nil]
  | cons r rs ih =>
    show replaceList (replaceRow t r.1 r.2) rs = _
    rw [ih]
    unfold replaceRow
    rw [List.map_map]
    apply List.map_congr_left
    intro p _
    exact replaceStep_pointwise p r rs

/-- Every row of `upsertRow t k v` keyed `k` has value `v`. -/
theorem upsertRow_val_self (t : List (K × α)) (k : K) (v w : α)
    (h : (k, w) ∈ upsertRow t k v) : w = v := by
  unfold upsertRow at h
  by_cases hk : hasKey t k = true
  · rw [if_pos hk] at h
    rcases List.mem_map.mp h with ⟨p, _, hpe⟩
    by_cases hp : p.1 = k
    · rw [if_pos hp] at hpe
      exact (congrArg Prod.snd hpe).symm
    · rw [if_neg hp] at hpe
      exact absurd (congrArg Prod.fst hpe) (by simpa using hp)
  · rw [if_neg hk] at h
    rcases List.mem_append.mp h with h | h
    · exact absurd ((hasKey_iff t k).mpr ⟨w, h⟩) hk
    · rcases List.mem_singleton.mp h with he
      exact congrArg Prod.snd he

/-- Rows whose key is not assigned anywhere in `rs` pass through an upsert
batch untouched. -/
theorem upsertList_mem_of_not_assigned (t : List (K × α)) (rs : List (K × α))
    (k : K) (v : α) (hmem : (k, v) ∈ upsertList t rs)
    (hget : dictGet rs k = none) : (k, v) ∈ t := by
  induction rs generalizing t with
  | nil => exact hmem
  | cons r rs ih =>
    have hcons : dictGet (r :: rs) k =
        (match dictGet rs k with
         | some u => some u
         | none => if k = r.1 then some r.2 else none) := rfl
    rw [hcons] at hget
    cases hg : dictGet rs k with
    | some u => rw [hg] at hget; cases hget
    | none =>
      rw [hg] at hget
      have hk : ¬ k = r.1 := by
        intro hk
        rw [if_pos hk] at hget
        cases hget
      have hstep : upsertList t (r :: rs) = upsertList (upsertRow t r.1 r.2) rs := rfl
      rw [hstep] at hmem
      have hup : (k, v) ∈ upsertRow t r.1 r.2 := ih _ hmem hg
      unfold upsertRow at hup
      by_cases hrk : hasKey t r.1 = true
      · rw [if_pos hrk] at hup
        rcases List.mem_map.mp hup with ⟨p, hp, hpe⟩
        by_cases hpr : p.1 = r.1
        · rw [if_pos hpr] at hpe
          exact absurd (congrArg Prod.fst hpe).symm hk
        · rw [if_neg hpr] at hpe
          exact hpe ▸ hp
      · rw [if_neg hrk] at hup
        rcases List.mem_append.mp hup with h | h
        · exact h
        · rcases List.mem_singleton.mp h with he
          exact absurd (congrArg Prod.fst he) hk

/-- Every row of an upserted table whose key is assigned in `rs` carries the
last value `rs` assigns to that key. -/
theorem upsertList_mem_val (t : List (K × α)) (rs : List (K × α))
    (k : K) (v w : α) (hmem : (k, v) ∈ upsertList t rs)
    (hget : dictGet rs k = some w) : v = w := by
  induction rs generalizing t w with
  | nil => rw [dictGet_nil] at hget; cases hget
  | cons r rs ih =>
    have hstep : upsertList t (r :: rs) = upsertList (upsertRow t r.1 r.2) rs := rfl
    rw [hstep] at hmem
    have hcons : dictGet (r :: rs) k =
        (match dictGet rs k with
         | some u => some u
         | none => if k = r.1 then some r.2 else none) := rfl
    rw [hcons] at hget
    cases hg : dictGet rs k with
    | some u =>
      rw [hg] at hget
      cases hget
      exact ih _ w hmem hg
    | none =>
      rw [hg] at hget
      by_cases hk : k = r.1
      · rw [if_pos hk] at hget
        cases hget
        -- the row survives the later upserts untouched, so it came from
        -- `upsertRow t r.1 r.2`, where every row keyed `r.1` has value `r.2`
        have hsrc : (k, v) ∈ upsertRow t r.1 r.2 :=
          upsertList_mem_of_not_assigned _ rs k v hmem hg
        rw [hk] at hsrc
        exact upsertRow_val_self t r.1 r.2 v hsrc
      · rw [if_neg hk] at hget
        cases hget

/-- Re-applying the same keyed upsert batch changes nothing: after the first
pass every batch key is present, so the second pass only overwrites rows
with the values they already hold. -/
theorem upsertList_idem (t : List (K × α)) (rs : List (K × α)) :
    upsertList (upsertList t rs) rs = upsertList t rs := by
  have hkeys : ∀ r ∈ rs, hasKey (upsertList t rs) r.1 = true :=
    fun r hr => hasKey_upsertList_of_mem t rs r hr
  rw [upsertList_eq_replaceList _ _ hkeys, replaceList_eq_map]
  rw [List.map_congr_left (g := id) ?_]
  · rw [List.map_id]
  · intro p hp
    show (match dictGet rs p.1 with
          | some v => (p.1, v)
          | none => p) = p
    cases hg : dictGet rs p.1 with
    | some w =>
      have hmem : (p.1, p.2) ∈ upsertList t rs := hp
      have hv : p.2 = w := upsertList_mem_val t rs p.1 p.2 w hmem hg
      rw [← hv]
    | none => rfl

end Upsert

/-! ## `sorted(set(...))`: distinct values in sorted order

Python's `sorted({...})` produces the distinct elements in sorted order.
Only membership (which values survive) matters for the claims; ordering is
carried faithfully through an insertion sort that drops duplicates. -/

section SortedSet

variable {κ : Type} [DecidableEq κ]

def insertSortedBy (lt : κ → κ → Bool) (x : κ) : List κ → List κ
  | [] => [x]
  | y :: ys =>
    if x = y then y :: ys
    else if lt x y then x :: y :: ys
    else y :: insertSortedBy lt x ys

def distinctSortedBy (lt : κ → κ → Bool) (l : List κ) : List κ :=
  l.foldr (insertSortedBy lt) []

theorem mem_insertSortedBy (lt : κ → κ → Bool) (x a : κ) (l : List κ) :
    a ∈ insertSortedBy lt x l ↔ a = x ∨ a ∈ l := by
  induction l with
  | nil => simp [insertSortedBy]
  | cons y ys ih =>
    unfold insertSortedBy
    by_cases hxy : x = y
    · rw [if_pos hxy]
      subst hxy
      simp only [List.mem_cons]
      constructor
      · intro h; exact Or.inr h
      · rintro (h | h)
        · exact Or.inl h
        · exact h
    · rw [if_neg hxy]
      by_cases hlt : lt x y = true
      · rw [if_pos hlt]
        simp [List.mem_cons, or_comm, or_assoc, or_left_comm]
      · rw [if_neg hlt]
        simp only [List.mem_cons, ih]
        constructor
        · rintro (h | h | h)
          · exact Or.inr (Or.inl h)
          · exact Or.inl h
          · exact Or.inr (Or.inr h)
        · rintro (h | h | h)
          · exact Or.inr (Or.inl h)
          · exact Or.inl h
          · exact Or.inr (Or.inr h)

theorem mem_distinctSortedBy (lt : κ → κ → Bool) (a : κ) (l : List κ) :
    a ∈ distinctSortedBy lt l ↔ a ∈ l := by
  induction l with
  | nil => simp [distinctSortedBy]
  | cons x xs ih =>
    show a ∈ insertSortedBy lt x (distinctSortedBy lt xs) ↔ a ∈ x :: xs
    rw [mem_insertSortedBy, ih, List.mem_cons]

end SortedSet

/-! ## `drop_duplicates` with keep-first semantics -/

section Dedup

variable {β κ : Type} [DecidableEq κ]

/-- Pandas `drop_duplicates(subset=...)`: keeps the first row for each key
value, preserving row order (`seen` accumulates keys already emitted). -/
def dedupByKeyAux (key : β → κ) (seen : List κ) : List β → List β
  | [] => []
  | b :: bs =>
    if key b ∈ seen then dedupByKeyAux key seen bs
    else b :: dedupByKeyAux key (key b :: seen) bs

def dedupByKey (key : β → κ) (l : List β) : List β :=
  dedupByKeyAux key [] l

theorem dedupByKeyAux_spec (key : β → κ) (l : List β) :
    ∀ seen : List κ, ((dedupByKeyAux key seen l).map key).Nodup
      ∧ ∀ k ∈ (dedupByKeyAux key seen l).map key, k ∉ seen := by
  induction l with
  | nil => intro seen; exact ⟨List.nodup_nil, by intro k hk; cases hk⟩
  | cons b bs ih =>
    intro seen
    unfold dedupByKeyAux
    by_cases hb : key b ∈ seen
    · rw [if_pos hb]
      exact ih seen
    · rw [if_neg hb]
      obtain ⟨hnodup, hfresh⟩ := ih (key b :: seen)
      constructor
      · rw [List.map_cons, List.nodup_cons]
        refine ⟨?_, hnodup⟩
        intro hmem
        exact hfresh _ hmem (List.mem_cons_self _ _)
      · intro k hk
        rw [List.map_cons, List.mem_cons] at hk
        rcases hk with hk | hk
        · rw [hk]; exact hb
        · intro hks
          exact hfresh _ hk (List.mem_cons_of_mem _ hks)

/-- After keep-first dedup on a key, each key value occurs at most once. -/
theorem dedupByKey_nodup (key : β → κ) (l : List β) :
    ((dedupByKey key l).map key).Nodup :=
  (dedupByKeyAux_spec key l []).1

theorem mem_of_mem_dedupByKeyAux (key : β → κ) (l : List β) :
    ∀ (seen : List κ) (b : β), b ∈ dedupByKeyAux key seen l → b ∈ l := by
  induction l with
  | nil => intro _ _ h; cases h
  | cons c cs ih =>
    intro seen b h
    unfold dedupByKeyAux at h
    by_cases hc : key c ∈ seen
    · rw [if_pos hc] at h
      exact List.mem_cons_of_mem _ (ih seen b h)
    · rw [if_neg hc] at h
      rcases List.mem_cons.mp h with h | h
      · rw [h]; exact List.mem_cons_self _ _
      · exact List.mem_cons_of_mem _ (ih _ b h)

theorem mem_of_mem_dedupByKey (key : β → κ) (l : List β) (b : β)
    (h : b ∈ dedupByKey key l) : b ∈ l :=
  mem_of_mem_dedupByKeyAux key l [] b h

end Dedup

/-! ## Field parsing (`src/Ingestion/main.py` lines 81-115)

Python `Decimal` values are modelled as exact rationals.  `parseDec` models
the `Decimal(string)` constructor on finite numeric strings: optional
surrounding whitespace, optional sign, integer and/or fractional digits,
optional decimal exponent.  (The special values `Infinity`/`NaN` accepted
by `Decimal` and non-ASCII digits are outside the model; all claims below
concern finite numeric, blank, or outright malformed text.)  A `none`
result models the `InvalidOperation` exception. -/

/-- Python `str.strip()`: drop whitespace from both ends.  (Defined over
the character list so that it evaluates inside the kernel; the built-in
`String.trim` is defined by well-founded recursion on byte positions and
does not reduce.) -/
def pyStrip (s : String) : String :=
  ⟨((s.data.dropWhile Char.isWhitespace).reverse.dropWhile Char.isWhitespace).reverse⟩

/-- `s.endswith("%")`. -/
def pyEndsPct (s : String) : Bool :=
  match s.data.getLast? with
  | some c => c = '%'
  | none => false

/-- `s.replace(",", ".")` — the pattern and replacement are single
characters, so this is a character-wise substitution. -/
def commaToDot (s : String) : String :=
  ⟨s.data.map (fun c => if c = ',' then '.' else c)⟩

def digitsToNat (cs : List Char) : ℕ :=
  cs.foldl (fun a c => 10 * a + (c.toNat - 48)) 0

def allDigits (cs : List Char) : Bool :=
  cs.all Char.isDigit

/-- Mantissa: `digits`, `digits.digits`, `digits.` or `.digits`. -/
def parseMant (cs : List Char) : Option ℚ :=
  let ip := cs.takeWhile (fun c => c ≠ '.')
  let rest := cs.dropWhile (fun c => c ≠ '.')
  match rest with
  | [] => if ip ≠ [] ∧ allDigits ip then some (digitsToNat ip) else none
  | _ :: frac =>
    if allDigits ip ∧ allDigits frac ∧ (ip ≠ [] ∨ frac ≠ []) then
      some ((digitsToNat ip : ℚ) + (digitsToNat frac : ℚ) / (10 : ℚ) ^ frac.length)
    else none

/-- Exponent part after `e`/`E`: optional sign, at least one digit. -/
def parseExp (cs : List Char) : Option ℤ :=
  match cs with
  | '-' :: r => if r ≠ [] ∧ allDigits r then some (-(digitsToNat r : ℤ)) else none
  | '+' :: r => if r ≠ [] ∧ allDigits r then some ((digitsToNat r : ℤ)) else none
  | r => if r ≠ [] ∧ allDigits r then some ((digitsToNat r : ℤ)) else none

def parseSign (cs : List Char) : ℚ × List Char :=
  match cs with
  | '-' :: r => (-1, r)
  | '+' :: r => (1, r)
  | r => (1, r)

/-- Model of Python `Decimal(s)` for finite numeric strings (`Decimal`
itself also strips surrounding whitespace). -/
def parseDec (s : String) : Option ℚ :=
  let cs := (pyStrip s).data
  if cs = [] then none
  else
    let sgn := (parseSign cs).1
    let body := (parseSign cs).2
    let mantCs := body.takeWhile (fun c => c ≠ 'e' ∧ c ≠ 'E')
    let expCs := body.dropWhile (fun c => c ≠ 'e' ∧ c ≠ 'E')
    match parseMant mantCs with
    | none => none
    | some m =>
      match expCs with
      | [] => some (sgn * m)
      | _ :: ecs =>
        match parseExp ecs with
        | none => none
        | some e => some (sgn * m * (10 : ℚ) ^ e)

/-- `to_decimal` (main.py lines 87-93): missing input defaults to 0; a
present value is parsed with `Decimal(str(x))`, and a parse failure is
re-raised as `ValueError` mentioning the offending value. -/
def to_decimal (x : Option String) : Except String ℚ :=
  match x with
  | none => Except.ok 0
  | some s =>
    match parseDec s with
    | some q => Except.ok q
    | none => Except.error ("Invalid decimal value: " ++ s)

/-- `s = str(x).strip()` followed by `if s.endswith("%"): s = s[:-1]`. -/
def pctBody (str0 : String) : String :=
  if pyEndsPct (pyStrip str0) then ⟨(pyStrip str0).data.dropLast⟩
  else pyStrip str0

/-- The defensive clamp of lines 111-114: `if d < 0: d = 0` then
`if d > 1: d = 1` (the second test sees the reassigned value, so the two
sequential statements amount to this nested conditional). -/
def pclamp (d : ℚ) : ℚ :=
  if d < 0 then 0 else if d > 1 then 1 else d

/-- `percent_str_to_decimal` (main.py lines 96-115): missing input is 0;
strip whitespace, drop one trailing `%`, empty remainder is 0; otherwise
normalize the comma separator, parse as decimal, divide by 100 and clamp
the result into [0, 1].  A `none` result models the uncaught
`InvalidOperation` raised by `Decimal(s)` on malformed text. -/
def percent_str_to_decimal (x : Option String) : Option ℚ :=
  match x with
  | none => some 0
  | some str0 =>
    if pctBody str0 = "" then some 0
    else
      match parseDec (commaToDot (pctBody str0)) with
      | none => none
      | some p => some (pclamp (p / 100))

/-- The inputs on which `percent_str_to_decimal` raises: present, not blank
after stripping a trailing `%`, and not parseable as a decimal. -/
def percentMalformed (x : Option String) : Bool :=
  match x with
  | none => false
  | some str0 =>
    if pctBody str0 = "" then false
    else (parseDec (commaToDot (pctBody str0))).isNone

/-! ## The simple-dimension resolver (`upsert_simple_dim`)

Both sources pass a column's raw cells (`df[col].tolist()`) to
`upsert_simple_dim`, filter out null and blank values, deduplicate and sort
(`sorted({...})`), bulk insert-if-absent, then read back ids for the whole
requested value set and return a value-to-id dict. -/

/-- `str(x)` applied to a cell, as in `.astype(str)`: a missing value
renders as the text `"nan"` (pandas prints `NaN` that way). -/
def pyStr (c : Option String) : String :=
  match c with
  | none => "nan"
  | some s => s

def strLt (a b : String) : Bool := decide (a < b)

def chanCampLt (a b : ℕ × String) : Bool :=
  decide (a.1 < b.1 ∨ (a.1 = b.1 ∧ a.2 < b.2))

/-- The set-builder filter of main.py line 178
(`{v for v in values if v is not None and str(v).strip() != ""}`):
`None` and blank-after-strip values are dropped, survivors kept RAW. -/
def keepRawValue (c : Option String) : Option String :=
  match c with
  | none => none
  | some s => if pyStrip s = "" then none else some s

/-- The set-builder filter of fashion_sales_dag.py line 98
(`{str(v).strip() for v in values if v is not None and str(v).strip() != ""}`):
same condition, but the kept value is NORMALIZED with `str(v).strip()`. -/
def keepStrippedValue (c : Option String) : Option String :=
  match c with
  | none => none
  | some s => if pyStrip s = "" then none else some (pyStrip s)

/-- Post-filter body shared verbatim by both implementations: bulk
insert-if-absent of the distinct sorted values, then the dict read-back of
ids for the whole requested value set. -/
def simpleDimCore (d : DimTable String) (vs : List String) :
    DimTable String × List (String × ℕ) :=
  (d.insertAll vs,
   vs.filterMap (fun v => ((d.insertAll vs).lookupId v).map (fun i => (v, i))))

/-- `upsert_simple_dim` of `src/Ingestion/main.py` (lines 166-198). -/
def upsert_simple_dim (d : DimTable String) (values : List (Option String)) :
    DimTable String × List (String × ℕ) :=
  simpleDimCore d (distinctSortedBy strLt (values.filterMap keepRawValue))

/-- `upsert_simple_dim` of `src/dags/fashion_sales_dag.py` (lines 97-118). -/
def upsert_simple_dim_dag (d : DimTable String) (values : List (Option String)) :
    DimTable String × List (String × ℕ) :=
  simpleDimCore d (distinctSortedBy strLt (values.filterMap keepStrippedValue))

/-- Pair cleaning of `upsert_dim_campaign` (main.py lines 211-220): drop
pairs with a falsy (empty) channel or campaign text or an unresolved
channel, map the channel to its id, deduplicate and sort. -/
def campCleaned (channel_map : List (String × ℕ))
    (pairs : List (String × String)) : List (ℕ × String) :=
  distinctSortedBy chanCampLt (pairs.filterMap (fun pr =>
    if pr.1 = "" ∨ pr.2 = "" then none
    else (dictGet channel_map pr.1).map (fun cid => (cid, pr.2))))

/-- Read-back of `upsert_dim_campaign` (lines 233-251): select the table
rows matching the cleaned pair set and key the returned dict by the
original `(channel_name, campaign_name)` texts via the reversed channel
map, skipping ids whose reverse lookup is missing or falsy. -/
def campReadBack (t1 : DimTable (ℕ × String))
    (channel_map : List (String × ℕ)) (cleaned : List (ℕ × String)) :
    List ((String × String) × ℕ) :=
  (t1.rows.filter (fun row => cleaned.contains row.2)).filterMap (fun row =>
    (dictGet (channel_map.map (fun p => (p.2, p.1))) row.2.1).bind (fun cn =>
      if cn = "" then none else some ((cn, row.2.2), row.1)))

/-- `upsert_dim_campaign` (main.py lines 201-251): insert-if-absent the
cleaned `(channel_id, campaign_name)` pairs, then read ids back. -/
def upsert_dim_campaign (t : DimTable (ℕ × String))
    (channel_map : List (String × ℕ)) (pairs : List (String × String)) :
    DimTable (ℕ × String) × List ((String × String) × ℕ) :=
  (t.insertAll (campCleaned channel_map pairs),
   campReadBack (t.insertAll (campCleaned channel_map pairs)) channel_map
     (campCleaned channel_map pairs))

/-! ## Rows, projections and tuple builders (`main` of main.py) -/

/-- One CSV row, restricted to the columns the loader touches.  Text cells
are `Option String` (`none` models a pandas missing value), id and count
cells are `Option ℤ`, and `total_amount` is `Option ℚ` (a numeric column
whose missing values survive `float()` as NaN). -/
structure Row where
  sale_date : Option String
  channel : Option String
  category : Option String
  brand : Option String
  color : Option String
  size : Option String
  country : Option String
  channel_campaigns : Option String
  customer_id : Option ℤ
  first_name : Option String
  last_name : Option String
  email : Option String
  gender : Option String
  age_range : Option String
  signup_date : Option String
  product_id : Option ℤ
  product_name : Option String
  cost_price : Option String
  original_price : Option String
  sale_id : Option ℤ
  total_amount : Option ℚ
  item_id : Option ℤ
  quantity : Option ℤ
  discount_percent : Option String
  deriving DecidableEq, Repr

/-- Failure modes of a load run (each models a raised Python exception). -/
inductive Err
  /-- `InvalidOperation` from `Decimal` inside `percent_str_to_decimal`. -/
  | invalidPercent
  /-- `ValueError` re-raised by `to_decimal`, with its message. -/
  | badDecimal (msg : String)
  /-- `RuntimeError("Missing campaign_id mapping for channel=.. campaign=..")`. -/
  | consistency (channel campaign : String)
  /-- `ValueError` from `int()` applied to a missing quantity. -/
  | intNan
  deriving DecidableEq, Repr

/-- Projection `df[["customer_id", ..., "country"]]` (main.py line 403). -/
structure CustProj where
  customer_id : Option ℤ
  first_name : Option String
  last_name : Option String
  email : Option String
  gender : Option String
  age_range : Option String
  signup_date : Option String
  country : Option String
  deriving DecidableEq, Repr

/-- Projection `df[["product_id", ..., "original_price"]]` (line 424). -/
structure ProdProj where
  product_id : Option ℤ
  product_name : Option String
  category : Option String
  brand : Option String
  color : Option String
  size : Option String
  cost_price : Option String
  original_price : Option String
  deriving DecidableEq, Repr

/-- Projection `df[["sale_id", "sale_date", "total_amount", "customer_id",
"channel", "channel_campaigns"]]` (line 448). -/
structure SaleProj where
  sale_id : Option ℤ
  sale_date : Option String
  total_amount : Option ℚ
  customer_id : Option ℤ
  channel : Option String
  campaign : Option String
  deriving DecidableEq, Repr

/-- Projection `df[["item_id", "sale_id", "product_id", "quantity",
"discount_percent_dec"]]` (line 466), after the discount column has been
computed. -/
structure ItemProj where
  item_id : Option ℤ
  sale_id : Option ℤ
  product_id : Option ℤ
  quantity : Option ℤ
  disc : ℚ
  deriving DecidableEq, Repr

def projCust (r : Row) : CustProj :=
  ⟨r.customer_id, r.first_name, r.last_name, r.email, r.gender,
   r.age_range, r.signup_date, r.country⟩

def projProd (r : Row) : ProdProj :=
  ⟨r.product_id, r.product_name, r.category, r.brand, r.color, r.size,
   r.cost_price, r.original_price⟩

def projSale (r : Row) : SaleProj :=
  ⟨r.sale_id, r.sale_date, r.total_amount, r.customer_id, r.channel,
   r.channel_campaigns⟩

/-- `drop_duplicates()` on the full projected column set (keep-first). -/
def custProjList (df : List Row) : List CustProj :=
  dedupByKey (fun p => p) (df.map projCust)

def prodProjList (df : List Row) : List ProdProj :=
  dedupByKey (fun p => p) (df.map projProd)

/-- `drop_duplicates(subset=["sale_id"])` (keep-first by sale_id). -/
def saleProjList (df : List Row) : List SaleProj :=
  dedupByKey (fun p => p.sale_id) (df.map projSale)

/-- `drop_duplicates(subset=["item_id"])` over the rows joined with their
precomputed discount column. -/
def itemProjList (dfd : List (Row × ℚ)) : List ItemProj :=
  dedupByKey (fun p => p.item_id)
    (dfd.map (fun rd =>
      ⟨rd.1.item_id, rd.1.sale_id, rd.1.product_id, rd.1.quantity, rd.2⟩))

/-- Stored attribute tuple of `dim_customer` (non-key columns). -/
structure CustomerRec where
  first_name : Option String
  last_name : Option String
  email : Option String
  gender : Option String
  age_range : Option String
  signup_date : Option String
  country_id : Option ℕ
  deriving DecidableEq, Repr

structure ProductRec where
  product_name : Option String
  category_id : Option ℕ
  brand_id : Option ℕ
  color_id : Option ℕ
  size_id : Option ℕ
  cost_price : ℚ
  original_price : ℚ
  deriving DecidableEq, Repr

structure SaleRec where
  sale_date : Option String
  total_amount : Option ℚ
  customer_id : ℤ
  campaign_id : ℕ
  deriving DecidableEq, Repr

structure ItemRec where
  sale_id : ℤ
  product_id : ℤ
  quantity : ℤ
  discount_percent : ℚ
  deriving DecidableEq, Repr

deriving instance DecidableEq for Except

/-- Generic tuple-building loop: iterate the deduplicated projections in
order, skip rows the step declines (null required keys), abort on the
first raised exception, collect built `(key, record)` tuples. -/
def buildLoop {π α : Type} (step : π → Except Err (Option (ℤ × α))) :
    List π → Except Err (List (ℤ × α))
  | [] => Except.ok []
  | p :: ps =>
    match step p with
    | Except.error e => Except.error e
    | Except.ok none => buildLoop step ps
    | Except.ok (some r) =>
      match buildLoop step ps with
      | Except.error e => Except.error e
      | Except.ok rest => Except.ok (r :: rest)

/-- Customer tuple (main.py lines 402-419): skip on missing customer_id;
country id via the country map only when the country cell is present. -/
def custStep (country_map : List (String × ℕ)) (p : CustProj) :
    Option (ℤ × CustomerRec) :=
  match p.customer_id with
  | none => none
  | some cid =>
    some (cid,
      ⟨p.first_name, p.last_name, p.email, p.gender, p.age_range,
       p.signup_date,
       match p.country with
       | none => none
       | some cn => dictGet country_map cn⟩)

def buildCust (projs : List CustProj) (country_map : List (String × ℕ)) :
    List (ℤ × CustomerRec) :=
  projs.filterMap (custStep country_map)

/-- Product tuple (lines 423-443): skip on missing product_id; prices go
through `to_decimal`, whose `ValueError` aborts the run. -/
def prodStep (cat_map brand_map color_map size_map : List (String × ℕ))
    (p : ProdProj) : Except Err (Option (ℤ × ProductRec)) :=
  match p.product_id with
  | none => Except.ok none
  | some pid =>
    match to_decimal p.cost_price with
    | Except.error m => Except.error (Err.badDecimal m)
    | Except.ok cp =>
      match to_decimal p.original_price with
      | Except.error m => Except.error (Err.badDecimal m)
      | Except.ok op =>
        Except.ok (some (pid,
          ⟨p.product_name,
           (match p.category with
            | none => none
            | some s => dictGet cat_map s),
           (match p.brand with
            | none => none
            | some s => dictGet brand_map s),
           (match p.color with
            | none => none
            | some s => dictGet color_map s),
           (match p.size with
            | none => none
            | some s => dictGet size_map s),
           cp, op⟩))

def buildProd (projs : List ProdProj)
    (cat_map brand_map color_map size_map : List (String × ℕ)) :
    Except Err (List (ℤ × ProductRec)) :=
  buildLoop (prodStep cat_map brand_map color_map size_map) projs

/-- Sale tuple (lines 447-461): skip on missing sale_id or customer_id;
an unmapped `(str(channel), str(campaign))` pair raises the fatal
consistency error. -/
def saleStep (campaign_map : List ((String × String) × ℕ)) (p : SaleProj) :
    Except Err (Option (ℤ × SaleRec)) :=
  match p.sale_id, p.customer_id with
  | some sid, some cid =>
    match dictGet campaign_map (pyStr p.channel, pyStr p.campaign) with
    | none => Except.error (Err.consistency (pyStr p.channel) (pyStr p.campaign))
    | some campid =>
      Except.ok (some (sid, ⟨p.sale_date, p.total_amount, cid, campid⟩))
  | _, _ => Except.ok none

def buildSales (projs : List SaleProj)
    (campaign_map : List ((String × String) × ℕ)) :
    Except Err (List (ℤ × SaleRec)) :=
  buildLoop (saleStep campaign_map) projs

/-- Sale-item tuple (lines 465-479): skip on missing item/sale/product id;
`int(quantity)` raises on a missing quantity. -/
def itemStep (p : ItemProj) : Except Err (Option (ℤ × ItemRec)) :=
  match p.item_id, p.sale_id, p.product_id with
  | some iid, some sid, some pid =>
    match p.quantity with
    | none => Except.error Err.intNan
    | some q => Except.ok (some (iid, ⟨sid, pid, q, p.disc⟩))
  | _, _, _ => Except.ok none

def buildItems (projs : List ItemProj) : Except Err (List (ℤ × ItemRec)) :=
  buildLoop itemStep projs

/-- `df["discount_percent"].apply(percent_str_to_decimal)` over every
filtered row (before the transaction is opened); the first malformed
percentage aborts the run. -/
def computeDiscounts : List Row → Except Err (List (Row × ℚ))
  | [] => Except.ok []
  | r :: rs =>
    match percent_str_to_decimal r.discount_percent with
    | none => Except.error Err.invalidPercent
    | some d =>
      match computeDiscounts rs with
      | Except.error e => Except.error e
      | Except.ok rest => Except.ok ((r, d) :: rest)

/-! ## Database state and the main pipeline -/

structure DB where
  dim_channel : DimTable String
  dim_category : DimTable String
  dim_brand : DimTable String
  dim_color : DimTable String
  dim_size : DimTable String
  dim_country : DimTable String
  dim_campaign : DimTable (ℕ × String)
  dim_customer : List (ℤ × CustomerRec)
  dim_product : List (ℤ × ProductRec)
  fact_sale : List (ℤ × SaleRec)
  fact_sale_item : List (ℤ × ItemRec)
  deriving DecidableEq, Repr

/-- Resolver maps produced in steps 3.1-3.2 of `main`. -/
structure Maps where
  ch : List (String × ℕ)
  cat : List (String × ℕ)
  br : List (String × ℕ)
  co : List (String × ℕ)
  sz : List (String × ℕ)
  ctry : List (String × ℕ)
  camp : List ((String × String) × ℕ)
  deriving DecidableEq, Repr

/-- `pairs = list(zip(df["channel"].astype(str), df["channel_campaigns"].astype(str)))`. -/
def pairsOf (df : List Row) : List (String × String) :=
  df.map (fun r => (pyStr r.channel, pyStr r.channel_campaigns))

/-- Steps 3.1-3.2 of `main` (lines 389-399): resolve the six simple
dimensions, then campaigns (which need the channel map). -/
def resolveDims (df : List Row) (db : DB) : DB × Maps :=
  let ch := upsert_simple_dim db.dim_channel (df.map (fun r => r.channel))
  let cat := upsert_simple_dim db.dim_category (df.map (fun r => r.category))
  let br := upsert_simple_dim db.dim_brand (df.map (fun r => r.brand))
  let co := upsert_simple_dim db.dim_color (df.map (fun r => r.color))
  let sz := upsert_simple_dim db.dim_size (df.map (fun r => r.size))
  let ct := upsert_simple_dim db.dim_country (df.map (fun r => r.country))
  let camp := upsert_dim_campaign db.dim_campaign ch.2 (pairsOf df)
  (⟨ch.1, cat.1, br.1, co.1, sz.1, ct.1, camp.1,
    db.dim_customer, db.dim_product, db.fact_sale, db.fact_sale_item⟩,
   ⟨ch.2, cat.2, br.2, co.2, sz.2, ct.2, camp.2⟩)

/-- Exception propagation: run `f` on the payload unless an exception is
already in flight (the implicit control flow of the Python `try` body). -/
def exBind {ε α β : Type} (x : Except ε α) (f : α → Except ε β) : Except ε β :=
  match x with
  | Except.error e => Except.error e
  | Except.ok a => f a

theorem exBind_ok {ε α β : Type} (a : α) (f : α → Except ε β) :
    exBind (Except.ok a) f = f a := rfl

theorem exBind_error {ε α β : Type} (e : ε) (f : α → Except ε β) :
    exBind (Except.error e) f = Except.error e := rfl

/-- Transactional body of `main` (steps 2-3.6).  Errors propagate to the
rollback handler, so only the final committed state is observable; the
loader's writes are therefore gathered into the single returned state
(error ordering is preserved: discounts first, then products, then sales,
then items; the customer build raises nothing). -/
def runBody (df : List Row) (db : DB) : Except Err DB :=
  exBind (computeDiscounts df) (fun dfd =>
    exBind (buildProd (prodProjList df) (resolveDims df db).2.cat
        (resolveDims df db).2.br (resolveDims df db).2.co
        (resolveDims df db).2.sz) (fun prodRows =>
      exBind (buildSales (saleProjList df) (resolveDims df db).2.camp)
        (fun saleRows =>
          exBind (buildItems (itemProjList dfd)) (fun itemRows =>
            Except.ok
              { (resolveDims df db).1 with
                dim_customer := upsertList (resolveDims df db).1.dim_customer
                  (buildCust (custProjList df) (resolveDims df db).2.ctry),
                dim_product := upsertList (resolveDims df db).1.dim_product prodRows,
                fact_sale := upsertList (resolveDims df db).1.fact_sale saleRows,
                fact_sale_item :=
                  upsertList (resolveDims df db).1.fact_sale_item itemRows }))))

/-- Completion signal of one invocation. -/
inductive Outcome
  /-- Empty filtered subset: no-op success, no transaction opened. -/
  | noData
  /-- Committed, with the processed-row count. -/
  | done (n : ℕ)
  deriving DecidableEq, Repr

/-- The load applied to an already-filtered row set: the empty-set
short-circuit (line 373), then the single all-or-nothing transaction whose
failure rolls the database back to its pre-run state (lines 485-488). -/
def loadFiltered (df : List Row) (db : DB) : (Err ⊕ Outcome) × DB :=
  if df = [] then (Sum.inr Outcome.noData, db)
  else
    match runBody df db with
    | Except.ok db1 => (Sum.inr (Outcome.done df.length), db1)
    | Except.error e => (Sum.inl e, db)

/-- `df = df[df["sale_date"] == run_dt]` (lines 370-371): rows whose parsed
date misses or mismatches are excluded.  Date parsing is abstracted as the
identity on the raw text. -/
def filterDate (raw : List Row) (d : String) : List Row :=
  raw.filter (fun r => r.sale_date = some d)

/-- Whole run of `main` after argument parsing: filter to the target date,
then load. -/
def runMain (raw : List Row) (d : String) (db : DB) : (Err ⊕ Outcome) × DB :=
  loadFiltered (filterDate raw d) db

/-! # Claims -/

/-! ## C9: decimal money parsing -/

/-- Claim C9: `to_decimal` returns exactly 0 for missing input, the exact
decimal value for parseable input, and raises `ValueError` mentioning the
offending value precisely when the input is present but not parseable as a
decimal. -/
theorem to_decimal_spec :
    to_decimal none = Except.ok 0
    ∧ (∀ (s : String) (q : ℚ), parseDec s = some q →
        to_decimal (some s) = Except.ok q)
    ∧ (∀ s : String,
        to_decimal (some s) = Except.error ("Invalid decimal value: " ++ s)
          ↔ parseDec s = none) := by
  refine ⟨rfl, ?_, ?_⟩
  · intro s q h
    show (match parseDec s with
          | some q => Except.ok q
          | none => Except.error ("Invalid decimal value: " ++ s)) = Except.ok q
    rw [h]
  · intro s
    show (match parseDec s with
          | some q => Except.ok q
          | none => Except.error ("Invalid decimal value: " ++ s))
          = Except.error ("Invalid decimal value: " ++ s)
        ↔ parseDec s = none
    cases parseDec s with
    | none => simp
    | some q => simp

/-- Witness for C9 at concrete inputs. -/
theorem to_decimal_spec_witness :
    to_decimal (some "12.5") = Except.ok ((25 : ℚ) / 2)
    ∧ to_decimal (some "abc") = Except.error ("Invalid decimal value: " ++ "abc") :=
  ⟨to_decimal_spec.2.1 "12.5" ((25 : ℚ) / 2) (by with_unfolding_all decide),
   (to_decimal_spec.2.2 "abc").mpr (by decide)⟩

/-! ## C4: percentage parsing on numeric inputs -/

theorem pclamp_eq_max_min (q : ℚ) : pclamp q = max 0 (min 1 q) := by
  unfold pclamp
  by_cases h0 : q < 0
  · rw [if_pos h0]
    have h1 : min 1 q = q := min_eq_right (le_of_lt (lt_trans h0 one_pos))
    rw [h1]
    exact (max_eq_left (le_of_lt h0)).symm
  · rw [if_neg h0]
    push_neg at h0
    by_cases h1 : q > 1
    · rw [if_pos h1]
      rw [min_eq_left (le_of_lt h1)]
      exact (max_eq_right zero_le_one).symm
    · rw [if_neg h1]
      push_neg at h1
      rw [min_eq_right h1, max_eq_right h0]

/-- Claim C4: for every string of the form `p%` with numeric `p` (comma or
dot separator, via the normalization), percentage parsing returns exactly
`clamp(p/100, 0, 1)`; and the named concrete cases: `150%` yields 1, `-5%`
yields 0, empty and missing input yield 0. -/
theorem percent_parse_spec :
    (∀ (str : String) (p : ℚ),
        pyEndsPct (pyStrip str) = true →
        parseDec (commaToDot (String.mk ((pyStrip str).data.dropLast))) = some p →
        percent_str_to_decimal (some str) = some (max 0 (min 1 (p / 100))))
    ∧ percent_str_to_decimal (some "150%") = some 1
    ∧ percent_str_to_decimal (some "-5%") = some 0
    ∧ percent_str_to_decimal (some "") = some 0
    ∧ percent_str_to_decimal none = some 0 := by
  refine ⟨?_, by with_unfolding_all decide, by with_unfolding_all decide,
    by decide, rfl⟩
  intro str p hpct hparse
  have hbody : pctBody str = String.mk ((pyStrip str).data.dropLast) := by
    unfold pctBody
    rw [if_pos hpct]
  show (if pctBody str = "" then some (0 : ℚ)
        else
          match parseDec (commaToDot (pctBody str)) with
          | none => none
          | some p => some (pclamp (p / 100)))
      = some (max 0 (min 1 (p / 100)))
  rw [hbody]
  have hne : ¬ String.mk ((pyStrip str).data.dropLast) = "" := by
    intro h
    rw [h] at hparse
    have hnone : parseDec (commaToDot "") = none := rfl
    rw [hnone] at hparse
    cases hparse
  rw [if_neg hne, hparse]
  show some (pclamp (p / 100)) = some (max 0 (min 1 (p / 100)))
  rw [pclamp_eq_max_min]

/-- Witness for C4's universally quantified part, at the comma-separated
input `2,5%`. -/
theorem percent_parse_spec_witness :
    percent_str_to_decimal (some "2,5%") = some (max 0 (min 1 ((5 : ℚ) / 2 / 100))) :=
  percent_parse_spec.1 "2,5%" ((5 : ℚ) / 2) (by decide)
    (by with_unfolding_all decide)

/-! ## C3: percentage parsing is NOT total -/

/-- Counterexample to claim C3: percentage parsing is not total — on the
malformed input `abc%` it raises (`Decimal("abc")` throws
`InvalidOperation`, and `percent_str_to_decimal` has no handler). -/
theorem percent_total_cex :
    ¬ ∀ x : Option String, (percent_str_to_decimal x).isSome = true := by
  intro h
  exact absurd (h (some "abc%")) (by decide)

/-- C3 as amended: percentage parsing returns a value exactly on missing,
blank, and decimal-parseable inputs; it raises precisely when the
%-stripped, comma-normalized, non-empty text fails to parse as a decimal
(such as `abc%`). -/
theorem percent_parse_total_iff :
    ∀ x : Option String,
      (percent_str_to_decimal x).isSome = !(percentMalformed x) := by
  intro x
  cases x with
  | none => rfl
  | some s =>
    show (if pctBody s = "" then some (0 : ℚ)
          else
            match parseDec (commaToDot (pctBody s)) with
            | none => none
            | some p => some (pclamp (p / 100))).isSome
        = !(if pctBody s = "" then false
            else (parseDec (commaToDot (pctBody s))).isNone)
    by_cases h1 : pctBody s = ""
    · rw [if_pos h1, if_pos h1]
      rfl
    · rw [if_neg h1, if_neg h1]
      cases parseDec (commaToDot (pctBody s)) with
      | none => rfl
      | some p => rfl

/-! ## C6: key set of the simple-dimension resolver -/

theorem keepRawValue_eq_some (c : Option String) (s : String) :
    keepRawValue c = some s ↔ c = some s ∧ ¬ pyStrip s = "" := by
  cases c with
  | none =>
    constructor
    · intro h; cases h
    · rintro ⟨h, _⟩; cases h
  | some t =>
    show (if pyStrip t = "" then none else some t) = some s
        ↔ some t = some s ∧ ¬ pyStrip s = ""
    by_cases h : pyStrip t = ""
    · rw [if_pos h]
      constructor
      · intro h'; cases h'
      · rintro ⟨he, hns⟩
        injection he with he'
        rw [he'] at h
        exact absurd h hns
    · rw [if_neg h]
      constructor
      · intro h'
        injection h' with h''
        exact ⟨by rw [h''], by rw [← h'']; exact h⟩
      · rintro ⟨he, _⟩
        injection he with he'
        rw [he']

/-- Membership in the processed (filtered, deduplicated, sorted) value
list of `upsert_simple_dim`. -/
theorem mem_processed_iff (values : List (Option String)) (s : String) :
    s ∈ distinctSortedBy strLt (values.filterMap keepRawValue)
      ↔ some s ∈ values ∧ ¬ pyStrip s = "" := by
  rw [mem_distinctSortedBy, List.mem_filterMap]
  constructor
  · rintro ⟨c, hc, he⟩
    obtain ⟨hcs, hns⟩ := (keepRawValue_eq_some c s).mp he
    exact ⟨hcs ▸ hc, hns⟩
  · rintro ⟨hmem, hns⟩
    exact ⟨some s, hmem, (keepRawValue_eq_some _ s).mpr ⟨rfl, hns⟩⟩

/-- Key membership in the returned map of `simpleDimCore`. -/
theorem simpleDimCore_map_isSome_iff (d : DimTable String) (vs : List String)
    (s : String) :
    (dictGet (simpleDimCore d vs).2 s).isSome = true ↔ s ∈ vs := by
  show (dictGet (vs.filterMap
      (fun v => ((d.insertAll vs).lookupId v).map (fun i => (v, i)))) s).isSome = true
    ↔ s ∈ vs
  rw [dictGet_isSome_iff]
  constructor
  · rintro ⟨i, hi⟩
    rcases List.mem_filterMap.mp hi with ⟨v, hv, he⟩
    rcases Option.map_eq_some'.mp he with ⟨j, _, hpair⟩
    have : v = s := congrArg Prod.fst hpair
    exact this ▸ hv
  · intro hs
    have hsome := DimTable.lookupId_insertAll_of_mem d vs s hs
    rcases Option.isSome_iff_exists.mp hsome with ⟨i, hi⟩
    refine ⟨i, List.mem_filterMap.mpr ⟨s, hs, ?_⟩⟩
    rw [hi]
    rfl

/-- Claim C6: the key set of the mapping returned by the simple-dimension
resolver is exactly the set of distinct non-blank input values — null and
blank/whitespace-only cells are excluded, and every other distinct value is
mapped to an id (whether pre-existing or freshly inserted). -/
theorem upsert_simple_dim_key_set (d : DimTable String)
    (values : List (Option String)) (s : String) :
    (dictGet (upsert_simple_dim d values).2 s).isSome = true
      ↔ some s ∈ values ∧ ¬ pyStrip s = "" := by
  show (dictGet (simpleDimCore d
      (distinctSortedBy strLt (values.filterMap keepRawValue))).2 s).isSome = true
    ↔ some s ∈ values ∧ ¬ pyStrip s = ""
  rw [simpleDimCore_map_isSome_iff, mem_processed_iff]

/-! ## C7: surrogate-id stability of simple dimensions -/

/-- Claim C7: if a natural-key value already has an id, resolving a value
set containing it returns that same id in the mapping, leaves the stored
row unchanged (the conflicting insert does nothing), and values not yet
present receive ids. -/
theorem upsert_simple_dim_stable (d : DimTable String)
    (values : List (Option String)) (v : String) (i : ℕ)
    (hv : d.lookupId v = some i)
    (hmem : some v ∈ values) (hnb : ¬ pyStrip v = "") :
    dictGet (upsert_simple_dim d values).2 v = some i
    ∧ (upsert_simple_dim d values).1.lookupId v = some i
    ∧ (∀ w : String, some w ∈ values → ¬ pyStrip w = "" →
        d.lookupId w = none →
        ∃ j, (upsert_simple_dim d values).1.lookupId w = some j) := by
  have hproc : v ∈ distinctSortedBy strLt (values.filterMap keepRawValue) :=
    (mem_processed_iff values v).mpr ⟨hmem, hnb⟩
  have hpres : ((d.insertAll
      (distinctSortedBy strLt (values.filterMap keepRawValue))).lookupId v) = some i :=
    DimTable.lookupId_insertAll_of_some d _ v i hv
  refine ⟨?_, hpres, ?_⟩
  · show dictGet ((distinctSortedBy strLt (values.filterMap keepRawValue)).filterMap
      (fun u => ((d.insertAll (distinctSortedBy strLt (values.filterMap keepRawValue))).lookupId u).map
        (fun j => (u, j)))) v = some i
    apply dictGet_of_mem_unique
    · apply List.mem_filterMap.mpr
      refine ⟨v, hproc, ?_⟩
      rw [hpres]
      rfl
    · intro w hw
      rcases List.mem_filterMap.mp hw with ⟨u, _, he⟩
      rcases Option.map_eq_some'.mp he with ⟨j, hj, hpair⟩
      have hu : u = v := congrArg Prod.fst hpair
      have hjw : j = w := congrArg Prod.snd hpair
      rw [hu] at hj
      rw [hpres] at hj
      injection hj with hji
      rw [← hjw, ← hji]
  · intro w hwmem hwnb _
    have hwproc : w ∈ distinctSortedBy strLt (values.filterMap keepRawValue) :=
      (mem_processed_iff values w).mpr ⟨hwmem, hwnb⟩
    have := DimTable.lookupId_insertAll_of_mem d _ w hwproc
    exact Option.isSome_iff_exists.mp this

/-- Witness for C7: dimension value `Online` already has id 3; resolving
`{Online, Retail}` returns 3 for it, keeps the stored row, and assigns
`Retail` an id. -/
theorem upsert_simple_dim_stable_witness :
    dictGet (upsert_simple_dim ⟨[(3, "Online")], 4⟩
        [some "Online", some "Retail"]).2 "Online" = some 3
    ∧ (upsert_simple_dim ⟨[(3, "Online")], 4⟩
        [some "Online", some "Retail"]).1.lookupId "Online" = some 3
    ∧ ∃ j, (upsert_simple_dim ⟨[(3, "Online")], 4⟩
        [some "Online", some "Retail"]).1.lookupId "Retail" = some j := by
  have h := upsert_simple_dim_stable ⟨[(3, "Online")], 4⟩
    [some "Online", some "Retail"] "Online" 3 (by decide) (by decide) (by decide)
  exact ⟨h.1, h.2.1, h.2.2 "Retail" (by decide) (by decide) (by decide)⟩

/-! ## C10: the two resolver implementations are NOT equivalent -/

/-- Counterexample to claim C10: on the value `" Online"` (leading blank)
the script inserts and returns the raw text while the DAG inserts and
returns the stripped text, so the two implementations differ. -/
theorem upsert_simple_dim_equiv_cex :
    upsert_simple_dim_dag ⟨[], 1⟩ [some " Online"]
      ≠ upsert_simple_dim ⟨[], 1⟩ [some " Online"] := by
  decide

theorem filterMap_congr_mem {a b : Type} (l : List a) (f g : a → Option b)
    (h : ∀ x ∈ l, f x = g x) : l.filterMap f = l.filterMap g := by
  induction l with
  | nil => rfl
  | cons x xs ih =>
    rw [List.filterMap_cons, List.filterMap_cons, h x (List.mem_cons_self _ _),
      ih (fun y hy => h y (List.mem_cons_of_mem _ hy))]

/-- C10 as amended: the two implementations agree whenever every present
input value is already stripped (equal to its own `strip()`); they can
differ on values with surrounding whitespace. -/
theorem upsert_simple_dim_equiv (d : DimTable String)
    (values : List (Option String))
    (h : ∀ s : String, some s ∈ values → pyStrip s = s) :
    upsert_simple_dim_dag d values = upsert_simple_dim d values := by
  show simpleDimCore d (distinctSortedBy strLt (values.filterMap keepStrippedValue))
      = simpleDimCore d (distinctSortedBy strLt (values.filterMap keepRawValue))
  have heq : values.filterMap keepStrippedValue = values.filterMap keepRawValue := by
    apply filterMap_congr_mem
    intro c hc
    cases c with
    | none => rfl
    | some s =>
      show (if pyStrip s = "" then none else some (pyStrip s))
          = (if pyStrip s = "" then none else some s)
      by_cases hb : pyStrip s = ""
      · rw [if_pos hb, if_pos hb]
      · rw [if_neg hb, if_neg hb, h s hc]
  rw [heq]

/-- Witness for C10's amended form on an already-stripped value. -/
theorem upsert_simple_dim_equiv_witness :
    upsert_simple_dim_dag ⟨[], 1⟩ [some "Online"]
      = upsert_simple_dim ⟨[], 1⟩ [some "Online"] :=
  upsert_simple_dim_equiv ⟨[], 1⟩ [some "Online"] (by
    intro s hs
    have he := List.mem_singleton.mp hs
    injection he with he'
    rw [he']
    decide)

/-! ## Generic facts about the tuple-building loop -/

section BuildLoop

variable {π α : Type}

theorem buildLoop_mem (step : π → Except Err (Option (ℤ × α)))
    (projs : List π) (rows : List (ℤ × α))
    (h : buildLoop step projs = Except.ok rows) (r : ℤ × α) (hr : r ∈ rows) :
    ∃ p ∈ projs, step p = Except.ok (some r) := by
  induction projs generalizing rows with
  | nil =>
    cases h
    cases hr
  | cons p ps ih =>
    unfold buildLoop at h
    cases hs : step p with
    | error e => rw [hs] at h; cases h
    | ok o =>
      rw [hs] at h
      cases o with
      | none =>
        obtain ⟨q, hq, hqe⟩ := ih rows h hr
        exact ⟨q, List.mem_cons_of_mem _ hq, hqe⟩
      | some r' =>
        cases hb : buildLoop step ps with
        | error e => rw [hb] at h; cases h
        | ok rest =>
          rw [hb] at h
          cases h
          rcases List.mem_cons.mp hr with hr | hr
          · exact ⟨p, List.mem_cons_self _ _, by rw [hs, hr]⟩
          · obtain ⟨q, hq, hqe⟩ := ih rest hb hr
            exact ⟨q, List.mem_cons_of_mem _ hq, hqe⟩

theorem buildLoop_nodup (step : π → Except Err (Option (ℤ × α)))
    (keyOf : π → Option ℤ)
    (hk : ∀ p r, step p = Except.ok (some r) → keyOf p = some r.1)
    (projs : List π) (rows : List (ℤ × α))
    (hnd : (projs.map keyOf).Nodup)
    (h : buildLoop step projs = Except.ok rows) :
    (rows.map (fun r => r.1)).Nodup := by
  induction projs generalizing rows with
  | nil =>
    cases h
    exact List.nodup_nil
  | cons p ps ih =>
    rw [List.map_cons, List.nodup_cons] at hnd
    unfold buildLoop at h
    cases hs : step p with
    | error e => rw [hs] at h; cases h
    | ok o =>
      rw [hs] at h
      cases o with
      | none => exact ih rows hnd.2 h
      | some r' =>
        cases hb : buildLoop step ps with
        | error e => rw [hb] at h; cases h
        | ok rest =>
          rw [hb] at h
          cases h
          rw [List.map_cons, List.nodup_cons]
          refine ⟨?_, ih rest hnd.2 hb⟩
          intro hmem
          rcases List.mem_map.mp hmem with ⟨q, hq, hqk⟩
          obtain ⟨p', hp', hp'e⟩ := buildLoop_mem step ps rest hb q hq
          have h1 : keyOf p' = some q.1 := hk p' q hp'e
          have h2 : keyOf p = some r'.1 := hk p r' hs
          exact hnd.1 (List.mem_map.mpr ⟨p', hp', by rw [h1, hqk, ← h2]⟩)

theorem buildLoop_error_src (step : π → Except Err (Option (ℤ × α)))
    (projs : List π) (e : Err)
    (h : buildLoop step projs = Except.error e) :
    ∃ p ∈ projs, step p = Except.error e := by
  induction projs with
  | nil => cases h
  | cons p ps ih =>
    unfold buildLoop at h
    cases hs : step p with
    | error e' =>
      rw [hs] at h
      cases h
      exact ⟨p, List.mem_cons_self _ _, hs⟩
    | ok o =>
      rw [hs] at h
      cases o with
      | none =>
        obtain ⟨q, hq, hqe⟩ := ih h
        exact ⟨q, List.mem_cons_of_mem _ hq, hqe⟩
      | some r =>
        cases hb : buildLoop step ps with
        | error e' =>
          rw [hb] at h
          cases h
          obtain ⟨q, hq, hqe⟩ := ih hb
          exact ⟨q, List.mem_cons_of_mem _ hq, hqe⟩
        | ok rest => rw [hb] at h; cases h

theorem buildLoop_fails (step : π → Except Err (Option (ℤ × α)))
    (projs : List π) (p : π) (e : Err)
    (hp : p ∈ projs) (he : step p = Except.error e) :
    ∃ e', buildLoop step projs = Except.error e' := by
  induction projs with
  | nil => cases hp
  | cons q qs ih =>
    show ∃ e', (match step q with
      | Except.error e => Except.error e
      | Except.ok none => buildLoop step qs
      | Except.ok (some r) =>
        match buildLoop step qs with
        | Except.error e => Except.error e
        | Except.ok rest => Except.ok (r :: rest)) = Except.error e'
    cases hq : step q with
    | error e' => exact ⟨e', rfl⟩
    | ok o =>
      have hptail : p ∈ qs := by
        rcases List.mem_cons.mp hp with h | h
        · rw [h] at he
          rw [he] at hq
          cases hq
        · exact h
      obtain ⟨e', he'⟩ := ih hptail
      cases o with
      | none => exact ⟨e', he'⟩
      | some r =>
        rw [he']
        exact ⟨e', rfl⟩

end BuildLoop

/-! ## C5: deduplication before tuple building -/

/-- A minimal row: every cell missing. -/
def blankRow : Row :=
  ⟨none, none, none, none, none, none, none, none, none, none, none, none,
   none, none, none, none, none, none, none, none, none, none, none, none⟩

/-- Counterexample to claim C5: the customer tuples are deduplicated on the
FULL projected attribute tuple, not on `customer_id` — two rows with the
same customer id but different emails produce two tuples with the same key,
so more than one tuple per distinct natural key reaches the upsert. -/
theorem dedup_natural_key_cex :
    ¬ ((buildCust (custProjList
        [{ blankRow with customer_id := some 5, email := some "a@x.com" },
         { blankRow with customer_id := some 5, email := some "b@x.com" }]) []).map
          (fun r => r.1)).Nodup := by
  decide

theorem saleStep_key (m : List ((String × String) × ℕ)) (p : SaleProj)
    (r : ℤ × SaleRec) (h : saleStep m p = Except.ok (some r)) :
    p.sale_id = some r.1 := by
  unfold saleStep at h
  cases hs : p.sale_id with
  | none => rw [hs] at h; cases h
  | some sid =>
    rw [hs] at h
    cases hc : p.customer_id with
    | none => rw [hc] at h; cases h
    | some cid =>
      rw [hc] at h
      cases hd : dictGet m (pyStr p.channel, pyStr p.campaign) with
      | none => rw [hd] at h; cases h
      | some campid =>
        rw [hd] at h
        cases h
        rfl

theorem itemStep_key (p : ItemProj) (r : ℤ × ItemRec)
    (h : itemStep p = Except.ok (some r)) : p.item_id = some r.1 := by
  unfold itemStep at h
  cases hi : p.item_id with
  | none => rw [hi] at h; cases h
  | some iid =>
    rw [hi] at h
    cases hs : p.sale_id with
    | none => rw [hs] at h; cases h
    | some sid =>
      rw [hs] at h
      cases hp : p.product_id with
      | none => rw [hp] at h; cases h
      | some pid =>
        rw [hp] at h
        cases hq : p.quantity with
        | none => rw [hq] at h; cases h
        | some q =>
          rw [hq] at h
          cases h
          rfl

/-- C5 as amended: sale and sale-item tuples ARE deduplicated on their
natural keys (`sale_id`, `item_id`) — at most one built tuple per distinct
key — while customer and product rows are deduplicated on the full
projected attribute tuple, which only guarantees distinct attribute tuples
(not distinct `customer_id`/`product_id` keys). -/
theorem dedup_amended :
    (∀ (df : List Row) (m : List ((String × String) × ℕ))
        (rows : List (ℤ × SaleRec)),
        buildSales (saleProjList df) m = Except.ok rows →
        (rows.map (fun r => r.1)).Nodup)
    ∧ (∀ (dfd : List (Row × ℚ)) (rows : List (ℤ × ItemRec)),
        buildItems (itemProjList dfd) = Except.ok rows →
        (rows.map (fun r => r.1)).Nodup)
    ∧ (∀ df : List Row, (custProjList df).Nodup)
    ∧ (∀ df : List Row, (prodProjList df).Nodup) := by
  refine ⟨?_, ?_, ?_, ?_⟩
  · intro df m rows h
    exact buildLoop_nodup (saleStep m) (fun p => p.sale_id) (saleStep_key m)
      (saleProjList df) rows
      (dedupByKey_nodup (fun p => p.sale_id) (df.map projSale)) h
  · intro dfd rows h
    have hnd : ((itemProjList dfd).map (fun p : ItemProj => p.item_id)).Nodup := by
      show ((dedupByKey (fun p : ItemProj => p.item_id)
        (dfd.map (fun rd =>
          ItemProj.mk rd.1.item_id rd.1.sale_id rd.1.product_id rd.1.quantity rd.2))).map
            (fun p : ItemProj => p.item_id)).Nodup
      exact dedupByKey_nodup _ _
    exact buildLoop_nodup itemStep (fun p => p.item_id) itemStep_key
      (itemProjList dfd) rows hnd h
  · intro df
    have h := dedupByKey_nodup (fun p => p) (df.map projCust)
    rwa [List.map_id'] at h
  · intro df
    have h := dedupByKey_nodup (fun p => p) (df.map projProd)
    rwa [List.map_id'] at h

/-- Two rows sharing a sale id (differing in customer id), used to witness
the keep-first sale dedup. -/
def dupSaleRowA : Row := { blankRow with sale_id := some 9, customer_id := some 5, channel := some "Web", channel_campaigns := some "C" }

def dupSaleRowB : Row := { blankRow with sale_id := some 9, customer_id := some 6, channel := some "Web", channel_campaigns := some "C" }

/-- Witness for C5's amended form at a concrete input: two rows with the
same sale id yield a single sale tuple (keep-first). -/
theorem dedup_amended_witness :
    (∃ rows, buildSales (saleProjList [dupSaleRowA, dupSaleRowB])
        [(("Web", "C"), 1)] = Except.ok rows
      ∧ (rows.map (fun r => r.1)).Nodup)
    ∧ (custProjList [blankRow, blankRow]).Nodup := by
  constructor
  · refine ⟨[(9, ⟨none, none, 5, 1⟩)], ?_, ?_⟩
    · with_unfolding_all decide
    · exact dedup_amended.1 [dupSaleRowA, dupSaleRowB]
        [(("Web", "C"), 1)] [(9, ⟨none, none, 5, 1⟩)]
        (by with_unfolding_all decide)
  · exact dedup_amended.2.2.1 [blankRow, blankRow]

/-! ## C8: empty filtered set is a no-op success -/

/-- Claim C8: when the row set filtered to the target date is empty, the
run returns the explicit no-data signal and the database is unchanged (the
short-circuit fires before any transaction or write). -/
theorem no_data_noop (raw : List Row) (d : String) (db : DB)
    (h : filterDate raw d = []) :
    runMain raw d db = (Sum.inr Outcome.noData, db) := by
  unfold runMain loadFiltered
  rw [h]
  rfl

/-- Witness for C8: a single row dated differently from the target. -/
theorem no_data_noop_witness :
    runMain [{ blankRow with sale_date := some "2025-06-16" }] "2025-06-17"
        ⟨⟨[], 1⟩, ⟨[], 1⟩, ⟨[], 1⟩, ⟨[], 1⟩, ⟨[], 1⟩, ⟨[], 1⟩, ⟨[], 1⟩, [], [], [], []⟩
      = (Sum.inr Outcome.noData,
        ⟨⟨[], 1⟩, ⟨[], 1⟩, ⟨[], 1⟩, ⟨[], 1⟩, ⟨[], 1⟩, ⟨[], 1⟩, ⟨[], 1⟩, [], [], [], []⟩) :=
  no_data_noop _ _ _ (by decide)

/-! ## Staged views of the transactional body -/

theorem runBody_discount_error (df : List Row) (db : DB) (e : Err)
    (h : computeDiscounts df = Except.error e) :
    runBody df db = Except.error e := by
  unfold runBody
  simp only [h, exBind_error]

theorem runBody_prod_error (df : List Row) (db : DB) (dfd : List (Row × ℚ))
    (e : Err) (h1 : computeDiscounts df = Except.ok dfd)
    (h2 : buildProd (prodProjList df) (resolveDims df db).2.cat
      (resolveDims df db).2.br (resolveDims df db).2.co
      (resolveDims df db).2.sz = Except.error e) :
    runBody df db = Except.error e := by
  unfold runBody
  simp only [h1, h2, exBind_ok, exBind_error]

theorem runBody_sale_error (df : List Row) (db : DB) (dfd : List (Row × ℚ))
    (prodRows : List (ℤ × ProductRec)) (e : Err)
    (h1 : computeDiscounts df = Except.ok dfd)
    (h2 : buildProd (prodProjList df) (resolveDims df db).2.cat
      (resolveDims df db).2.br (resolveDims df db).2.co
      (resolveDims df db).2.sz = Except.ok prodRows)
    (h3 : buildSales (saleProjList df) (resolveDims df db).2.camp
      = Except.error e) :
    runBody df db = Except.error e := by
  unfold runBody
  simp only [h1, h2, h3, exBind_ok, exBind_error]

theorem runBody_item_error (df : List Row) (db : DB) (dfd : List (Row × ℚ))
    (prodRows : List (ℤ × ProductRec)) (saleRows : List (ℤ × SaleRec)) (e : Err)
    (h1 : computeDiscounts df = Except.ok dfd)
    (h2 : buildProd (prodProjList df) (resolveDims df db).2.cat
      (resolveDims df db).2.br (resolveDims df db).2.co
      (resolveDims df db).2.sz = Except.ok prodRows)
    (h3 : buildSales (saleProjList df) (resolveDims df db).2.camp
      = Except.ok saleRows)
    (h4 : buildItems (itemProjList dfd) = Except.error e) :
    runBody df db = Except.error e := by
  unfold runBody
  simp only [h1, h2, h3, h4, exBind_ok, exBind_error]

theorem runBody_ok (df : List Row) (db : DB) (dfd : List (Row × ℚ))
    (prodRows : List (ℤ × ProductRec)) (saleRows : List (ℤ × SaleRec))
    (itemRows : List (ℤ × ItemRec))
    (h1 : computeDiscounts df = Except.ok dfd)
    (h2 : buildProd (prodProjList df) (resolveDims df db).2.cat
      (resolveDims df db).2.br (resolveDims df db).2.co
      (resolveDims df db).2.sz = Except.ok prodRows)
    (h3 : buildSales (saleProjList df) (resolveDims df db).2.camp
      = Except.ok saleRows)
    (h4 : buildItems (itemProjList dfd) = Except.ok itemRows) :
    runBody df db = Except.ok
      { (resolveDims df db).1 with
        dim_customer := upsertList (resolveDims df db).1.dim_customer
          (buildCust (custProjList df) (resolveDims df db).2.ctry),
        dim_product := upsertList (resolveDims df db).1.dim_product prodRows,
        fact_sale := upsertList (resolveDims df db).1.fact_sale saleRows,
        fact_sale_item :=
          upsertList (resolveDims df db).1.fact_sale_item itemRows } := by
  unfold runBody
  simp only [h1, h2, h3, h4, exBind_ok]

theorem loadFiltered_of_error (df : List Row) (db : DB) (e : Err)
    (hne : ¬ df = []) (h : runBody df db = Except.error e) :
    loadFiltered df db = (Sum.inl e, db) := by
  unfold loadFiltered
  rw [if_neg hne, h]

theorem loadFiltered_of_ok (df : List Row) (db db1 : DB)
    (hne : ¬ df = []) (h : runBody df db = Except.ok db1) :
    loadFiltered df db = (Sum.inr (Outcome.done df.length), db1) := by
  unfold loadFiltered
  rw [if_neg hne, h]

/-! ## C2: an unmapped campaign pair is fatal and rolls back -/

theorem saleStep_error_shape (m : List ((String × String) × ℕ))
    (p : SaleProj) (e : Err) (h : saleStep m p = Except.error e) :
    ∃ ch cp, e = Err.consistency ch cp := by
  unfold saleStep at h
  cases hs : p.sale_id with
  | none => rw [hs] at h; cases h
  | some sid =>
    rw [hs] at h
    cases hc : p.customer_id with
    | none => rw [hc] at h; cases h
    | some cid =>
      rw [hc] at h
      cases hd : dictGet m (pyStr p.channel, pyStr p.campaign) with
      | none =>
        rw [hd] at h
        cases h
        exact ⟨pyStr p.channel, pyStr p.campaign, rfl⟩
      | some campid => rw [hd] at h; cases h

/-- Claim C2: a deduplicated sale row with non-null sale and customer ids
whose textual `(channel, campaign)` pair is absent from the resolved
campaign map makes the run fail and roll back — the post-run state equals
the pre-run state and the completion signal is an error; moreover, if the
earlier stages (discount precompute and product build) raise nothing, the
error is precisely the campaign `ConsistencyError`. -/
theorem campaign_missing_fatal (df : List Row) (db : DB) (p : SaleProj)
    (hp : p ∈ saleProjList df)
    (hsid : p.sale_id ≠ none) (hcid : p.customer_id ≠ none)
    (hmiss : dictGet (resolveDims df db).2.camp
      (pyStr p.channel, pyStr p.campaign) = none) :
    (∃ e, (loadFiltered df db).1 = Sum.inl e)
    ∧ (loadFiltered df db).2 = db
    ∧ (∀ dfd, computeDiscounts df = Except.ok dfd →
        ∀ prodRows, buildProd (prodProjList df) (resolveDims df db).2.cat
          (resolveDims df db).2.br (resolveDims df db).2.co
          (resolveDims df db).2.sz = Except.ok prodRows →
        ∃ ch cp, (loadFiltered df db).1 = Sum.inl (Err.consistency ch cp)) := by
  obtain ⟨sid, hs⟩ := Option.ne_none_iff_exists'.mp hsid
  obtain ⟨cid, hc⟩ := Option.ne_none_iff_exists'.mp hcid
  have hstep : saleStep (resolveDims df db).2.camp p
      = Except.error (Err.consistency (pyStr p.channel) (pyStr p.campaign)) := by
    unfold saleStep
    rw [hs, hc, hmiss]
  have hdfne : ¬ df = [] := by
    intro h0
    rw [h0] at hp
    exact absurd hp (List.not_mem_nil p)
  obtain ⟨e', he'⟩ := buildLoop_fails (saleStep (resolveDims df db).2.camp)
    (saleProjList df) p _ hp hstep
  have hsales : buildSales (saleProjList df) (resolveDims df db).2.camp
      = Except.error e' := he'
  cases hd : computeDiscounts df with
  | error e =>
    have hlf := loadFiltered_of_error df db e hdfne
      (runBody_discount_error df db e hd)
    refine ⟨⟨e, by rw [hlf]⟩, by rw [hlf], ?_⟩
    intro dfd hdfd
    cases hdfd
  | ok dfd =>
    cases hpr : buildProd (prodProjList df) (resolveDims df db).2.cat
        (resolveDims df db).2.br (resolveDims df db).2.co
        (resolveDims df db).2.sz with
    | error e =>
      have hlf := loadFiltered_of_error df db e hdfne
        (runBody_prod_error df db dfd e hd hpr)
      refine ⟨⟨e, by rw [hlf]⟩, by rw [hlf], ?_⟩
      intro dfd' hdfd' prodRows hprod
      cases hprod
    | ok prodRows =>
      have hlf := loadFiltered_of_error df db e' hdfne
        (runBody_sale_error df db dfd prodRows e' hd hpr hsales)
      obtain ⟨q, hq, hqe⟩ := buildLoop_error_src
        (saleStep (resolveDims df db).2.camp) (saleProjList df) e' hsales
      obtain ⟨ch, cp, hshape⟩ := saleStep_error_shape _ q e' hqe
      refine ⟨⟨e', by rw [hlf]⟩, by rw [hlf], ?_⟩
      intro dfd' hdfd' prodRows' hprod'
      refine ⟨ch, cp, ?_⟩
      rw [hlf, hshape]

/-- The empty target database, shared by the concrete witnesses. -/
def emptyDB : DB :=
  ⟨⟨[], 1⟩, ⟨[], 1⟩, ⟨[], 1⟩, ⟨[], 1⟩, ⟨[], 1⟩, ⟨[], 1⟩, ⟨[], 1⟩, [], [], [], []⟩

/-- A sale row whose campaign text is blank: its `(channel, campaign)` pair
is dropped during campaign cleaning, so the sale finds no mapping. -/
def c2Row : Row := { blankRow with sale_date := some "2025-06-16", channel := some "Web", channel_campaigns := some "", sale_id := some 1, customer_id := some 2 }

/-- Witness for C2 on a concrete one-row load with a blank campaign. -/
theorem campaign_missing_fatal_witness :
    (∃ e, (loadFiltered [c2Row] emptyDB).1 = Sum.inl e)
    ∧ (loadFiltered [c2Row] emptyDB).2 = emptyDB
    ∧ (∃ ch cp,
        (loadFiltered [c2Row] emptyDB).1 = Sum.inl (Err.consistency ch cp)) := by
  have h := campaign_missing_fatal [c2Row] emptyDB (projSale c2Row)
    (by decide) (by decide) (by decide) (by decide)
  exact ⟨h.1, h.2.1,
    h.2.2 [(c2Row, 0)] (by with_unfolding_all decide) []
      (by with_unfolding_all decide)⟩

/-! ## C1: loading the same filtered row set twice is idempotent -/

/-- After a resolver pass every requested value is stored, so a second
identical pass inserts nothing and reads back the same mapping. -/
theorem simpleDimCore_idem (d : DimTable String) (vs : List String) :
    simpleDimCore (simpleDimCore d vs).1 vs = simpleDimCore d vs := by
  show simpleDimCore (d.insertAll vs) vs = simpleDimCore d vs
  unfold simpleDimCore
  rw [DimTable.insertAll_insertAll]

theorem upsert_simple_dim_idem (d : DimTable String)
    (values : List (Option String)) :
    upsert_simple_dim (upsert_simple_dim d values).1 values
      = upsert_simple_dim d values :=
  simpleDimCore_idem d (distinctSortedBy strLt (values.filterMap keepRawValue))

theorem upsert_dim_campaign_idem (t : DimTable (ℕ × String))
    (channel_map : List (String × ℕ)) (pairs : List (String × String)) :
    upsert_dim_campaign (upsert_dim_campaign t channel_map pairs).1
        channel_map pairs
      = upsert_dim_campaign t channel_map pairs := by
  show upsert_dim_campaign (t.insertAll (campCleaned channel_map pairs))
      channel_map pairs = upsert_dim_campaign t channel_map pairs
  unfold upsert_dim_campaign
  rw [DimTable.insertAll_insertAll]

/-- Inversion of a successful transactional body into its stages. -/
theorem runBody_ok_inv (df : List Row) (db db1 : DB)
    (h : runBody df db = Except.ok db1) :
    ∃ dfd prodRows saleRows itemRows,
      computeDiscounts df = Except.ok dfd
      ∧ buildProd (prodProjList df) (resolveDims df db).2.cat
          (resolveDims df db).2.br (resolveDims df db).2.co
          (resolveDims df db).2.sz = Except.ok prodRows
      ∧ buildSales (saleProjList df) (resolveDims df db).2.camp
          = Except.ok saleRows
      ∧ buildItems (itemProjList dfd) = Except.ok itemRows
      ∧ db1 = { (resolveDims df db).1 with
          dim_customer := upsertList (resolveDims df db).1.dim_customer
            (buildCust (custProjList df) (resolveDims df db).2.ctry),
          dim_product := upsertList (resolveDims df db).1.dim_product prodRows,
          fact_sale := upsertList (resolveDims df db).1.fact_sale saleRows,
          fact_sale_item :=
            upsertList (resolveDims df db).1.fact_sale_item itemRows } := by
  cases hd : computeDiscounts df with
  | error e =>
    rw [runBody_discount_error df db e hd] at h
    cases h
  | ok dfd =>
    cases hpr : buildProd (prodProjList df) (resolveDims df db).2.cat
        (resolveDims df db).2.br (resolveDims df db).2.co
        (resolveDims df db).2.sz with
    | error e =>
      rw [runBody_prod_error df db dfd e hd hpr] at h
      cases h
    | ok prodRows =>
      cases hsl : buildSales (saleProjList df) (resolveDims df db).2.camp with
      | error e =>
        rw [runBody_sale_error df db dfd prodRows e hd hpr hsl] at h
        cases h
      | ok saleRows =>
        cases hit : buildItems (itemProjList dfd) with
        | error e =>
          rw [runBody_item_error df db dfd prodRows saleRows e hd hpr hsl hit] at h
          cases h
        | ok itemRows =>
          rw [runBody_ok df db dfd prodRows saleRows itemRows hd hpr hsl hit] at h
          refine ⟨dfd, prodRows, saleRows, itemRows, rfl, rfl, rfl, hit, ?_⟩
          injection h with h'
          exact h'.symm

/-- Core of the C1 argument: re-running the transactional body from the
state it just committed commits the same state again. -/
theorem runBody_idem (df : List Row) (db db1 : DB)
    (h : runBody df db = Except.ok db1) :
    runBody df db1 = Except.ok db1 := by
  obtain ⟨dfd, prodRows, saleRows, itemRows, h1, h2, h3, h4, hdb1⟩ :=
    runBody_ok_inv df db db1 h
  have hch : db1.dim_channel
      = (upsert_simple_dim db.dim_channel (df.map (fun r => r.channel))).1 := by
    rw [hdb1]
    rfl
  have hcat : db1.dim_category
      = (upsert_simple_dim db.dim_category (df.map (fun r => r.category))).1 := by
    rw [hdb1]
    rfl
  have hbr : db1.dim_brand
      = (upsert_simple_dim db.dim_brand (df.map (fun r => r.brand))).1 := by
    rw [hdb1]
    rfl
  have hco : db1.dim_color
      = (upsert_simple_dim db.dim_color (df.map (fun r => r.color))).1 := by
    rw [hdb1]
    rfl
  have hsz : db1.dim_size
      = (upsert_simple_dim db.dim_size (df.map (fun r => r.size))).1 := by
    rw [hdb1]
    rfl
  have hct : db1.dim_country
      = (upsert_simple_dim db.dim_country (df.map (fun r => r.country))).1 := by
    rw [hdb1]
    rfl
  have hcampT : db1.dim_campaign
      = (upsert_dim_campaign db.dim_campaign
          (upsert_simple_dim db.dim_channel (df.map (fun r => r.channel))).2
          (pairsOf df)).1 := by
    rw [hdb1]
    rfl
  have hrd1 : resolveDims df db1 = (db1, (resolveDims df db).2) := by
    simp only [resolveDims]
    rw [hch, hcat, hbr, hco, hsz, hct, hcampT]
    rw [upsert_simple_dim_idem db.dim_channel (df.map (fun r => r.channel)),
      upsert_simple_dim_idem db.dim_category (df.map (fun r => r.category)),
      upsert_simple_dim_idem db.dim_brand (df.map (fun r => r.brand)),
      upsert_simple_dim_idem db.dim_color (df.map (fun r => r.color)),
      upsert_simple_dim_idem db.dim_size (df.map (fun r => r.size)),
      upsert_simple_dim_idem db.dim_country (df.map (fun r => r.country)),
      upsert_dim_campaign_idem db.dim_campaign
        (upsert_simple_dim db.dim_channel (df.map (fun r => r.channel))).2
        (pairsOf df)]
    rw [← hch, ← hcat, ← hbr, ← hco, ← hsz, ← hct, ← hcampT]
  have hcust1 : upsertList db1.dim_customer
      (buildCust (custProjList df) (resolveDims df db).2.ctry)
      = db1.dim_customer := by
    rw [hdb1]
    exact upsertList_idem (resolveDims df db).1.dim_customer
      (buildCust (custProjList df) (resolveDims df db).2.ctry)
  have hprod1 : upsertList db1.dim_product prodRows = db1.dim_product := by
    rw [hdb1]
    exact upsertList_idem (resolveDims df db).1.dim_product prodRows
  have hsale1 : upsertList db1.fact_sale saleRows = db1.fact_sale := by
    rw [hdb1]
    exact upsertList_idem (resolveDims df db).1.fact_sale saleRows
  have hitem1 : upsertList db1.fact_sale_item itemRows = db1.fact_sale_item := by
    rw [hdb1]
    exact upsertList_idem (resolveDims df db).1.fact_sale_item itemRows
  have h2' : buildProd (prodProjList df) (resolveDims df db1).2.cat
      (resolveDims df db1).2.br (resolveDims df db1).2.co
      (resolveDims df db1).2.sz = Except.ok prodRows := by
    rw [hrd1]
    exact h2
  have h3' : buildSales (saleProjList df) (resolveDims df db1).2.camp
      = Except.ok saleRows := by
    rw [hrd1]
    exact h3
  rw [runBody_ok df db1 dfd prodRows saleRows itemRows h1 h2' h3' h4]
  rw [hrd1]
  dsimp only
  rw [hcust1, hprod1, hsale1, hitem1]

/-- Claim C1: running the full load twice on the same filtered row set is
idempotent — for every filtered row set and every initial database state,
a second run immediately after the first leaves every dimension and fact
table exactly as the first run left them (and returns the same completion
signal). -/
theorem load_idempotent (df : List Row) (db : DB) :
    loadFiltered df ((loadFiltered df db).2) = loadFiltered df db := by
  by_cases hdf : df = []
  · subst hdf
    rfl
  · cases hrb : runBody df db with
    | error e =>
      have hlf := loadFiltered_of_error df db e hdf hrb
      rw [hlf]
      exact hlf
    | ok db1 =>
      have hlf := loadFiltered_of_ok df db db1 hdf hrb
      have hlf1 := loadFiltered_of_ok df db1 db1 hdf (runBody_idem df db db1 hrb)
      rw [hlf]
      exact hlf1

end Artefact
